import Mathlib

/-!
Shallow embedding of the MAS server's real-time core (apps/server/src: the
WebSocket gateway and the SQLite-backed conversation store).  JavaScript
`Map`s and plain objects are modelled as insertion-ordered association
lists; SQLite rows as a list of `Msg` records; socket effects as an
explicit outbox / close log inside `GState`.
-/

namespace MAS

/-- Association-list lookup: first entry with the given key (JS `Map.get`
or object property read). -/
def alget {α : Type} : List (String × α) → String → Option α
  | [], _ => none
  | (k0, v0) :: t, k => if k0 = k then some v0 else alget t k

/-- Association-list set: replace the first entry with the key, or append a
new entry at the end (JS `Map.set` or object property write, which keeps
insertion order). -/
def alset {α : Type} : List (String × α) → String → α → List (String × α)
  | [], k, v => [(k, v)]
  | (k0, v0) :: t, k, v => if k0 = k then (k, v) :: t else (k0, v0) :: alset t k v

/-- Association-list delete: remove the first entry with the key (JS
`Map.delete` or `delete obj[k]`). -/
def aldel {α : Type} : List (String × α) → String → List (String × α)
  | [], _ => []
  | (k0, v0) :: t, k => if k0 = k then t else (k0, v0) :: aldel t k

/-- A persisted message row (`messages` table of store.ts; optional TEXT
columns are `Option String`, `pinned` is the 0/1 integer read back as a
Bool, `reactions` is the JSON object emoji -> user-id array). -/
structure Msg where
  id : String
  from_ : String
  to_ : String
  createdAt : String
  contentType : String
  body : Option String := none
  meta : Option (List (String × String)) := none
  nonce : Option String := none
  ciphertext : Option String := none
  selfNonce : Option String := none
  selfCiphertext : Option String := none
  senderPublicKey : Option String := none
  deliveredAt : Option String := none
  readAt : Option String := none
  editedAt : Option String := none
  replyToId : Option String := none
  pinned : Bool := false
  reactions : Option (List (String × List String)) := none
deriving Repr, DecidableEq

/-- SQL `COALESCE(a, b)`: the first non-null argument. -/
def coalesce (a b : Option String) : Option String :=
  match a with
  | some x => some x
  | none => b

/-- `getMessage` prepared statement: `SELECT * FROM messages WHERE id = ?`
(id is the primary key, so the first match). -/
def getMessage (id : String) (msgs : List Msg) : Option Msg :=
  msgs.find? (fun m => decide (m.id = id))

/-- `insertMessage` / `db.saveMessage`: plain INSERT; violating the
`id TEXT PRIMARY KEY` constraint throws, modelled as `Except.error`. -/
def saveMessage (m : Msg) (msgs : List Msg) : Except Unit (List Msg) :=
  if msgs.any (fun x => decide (x.id = m.id)) then Except.error ()
  else Except.ok (msgs ++ [m])

/-- `updateDelivered` prepared statement:
`UPDATE messages SET deliveredAt = COALESCE(?, deliveredAt),
readAt = COALESCE(?, readAt) WHERE id = ?`. -/
def updateDelivered (deliveredAt readAt : Option String) (id : String)
    (msgs : List Msg) : List Msg :=
  msgs.map (fun m =>
    if m.id = id then
      { m with deliveredAt := coalesce deliveredAt m.deliveredAt,
               readAt := coalesce readAt m.readAt }
    else m)

/-- `batchUpdateDelivered`: a transaction running `updateDelivered` for
each id in order. -/
def batchUpdateDelivered (ids : List String) (deliveredAt readAt : Option String)
    (msgs : List Msg) : List Msg :=
  ids.foldl (fun acc id => updateDelivered deliveredAt readAt id acc) msgs

/-- The patch argument of `db.editMessage` (each missing field becomes
NULL via `?? null`). -/
structure EditPatch where
  ciphertext : Option String := none
  nonce : Option String := none
  selfCiphertext : Option String := none
  selfNonce : Option String := none
  senderPublicKey : Option String := none
deriving Repr, DecidableEq

/-- `db.editMessage`: UPDATE ... WHERE id = @id AND "from" = @userId, then
return `getMessage(id)` whether or not any row matched. -/
def editMessage (nowIso id userId : String) (patch : EditPatch)
    (msgs : List Msg) : Option Msg × List Msg :=
  let msgs2 := msgs.map (fun m =>
    if m.id = id ∧ m.from_ = userId then
      { m with ciphertext := patch.ciphertext, nonce := patch.nonce,
               selfCiphertext := patch.selfCiphertext, selfNonce := patch.selfNonce,
               senderPublicKey := patch.senderPublicKey, editedAt := some nowIso }
    else m)
  (getMessage id msgs2, msgs2)

/-- `db.deleteMessage`: DELETE FROM messages WHERE id = ? AND
("from" = ? OR "to" = ?); returns `changes > 0`. -/
def deleteMessage (id userId : String) (msgs : List Msg) : Bool × List Msg :=
  let msgs2 := msgs.filter (fun m =>
    !(decide (m.id = id ∧ (m.from_ = userId ∨ m.to_ = userId))))
  (decide (msgs2.length < msgs.length), msgs2)

/-- `db.togglePin`: UPDATE messages SET pinned = NOT pinned WHERE id = ?
AND ("from" = ? OR "to" = ?), then return `getMessage(id)`. -/
def togglePin (id userId : String) (msgs : List Msg) : Option Msg × List Msg :=
  let msgs2 := msgs.map (fun m =>
    if m.id = id ∧ (m.from_ = userId ∨ m.to_ = userId) then
      { m with pinned := !m.pinned }
    else m)
  (getMessage id msgs2, msgs2)

/-- The in-memory body of `transactReaction` acting on the parsed
`reactions` object: `if (!reactions[emoji]) reactions[emoji] = []` (an
existing empty array is truthy and kept), then either splice the user out
of the array (deleting the key when the array empties) or assign
`reactions[emoji] = [userId]`. -/
def toggleReactions (userId emoji : String)
    (rs0 : List (String × List String)) : List (String × List String) :=
  let rs := if (alget rs0 emoji).isSome then rs0 else alset rs0 emoji []
  let arr := (alget rs emoji).getD []
  if userId ∈ arr then
    let arr2 := arr.erase userId
    if arr2.isEmpty then aldel rs emoji else alset rs emoji arr2
  else alset rs emoji [userId]

/-- `transactReaction` / `db.addReaction`: load the row (null when the id
is unknown), toggle the reactions object, write it back, and return the
updated row. -/
def transactReaction (id userId emoji : String) (msgs : List Msg) :
    Option Msg × List Msg :=
  match getMessage id msgs with
  | none => (none, msgs)
  | some row =>
    let reactions := toggleReactions userId emoji (row.reactions.getD [])
    let msgs2 := msgs.map (fun m =>
      if m.id = id then { m with reactions := some reactions } else m)
    (some { row with reactions := some reactions }, msgs2)

/-- A decoded frame payload.  String-valued fields are `Option String`
(`none` = absent); `ids` is `none` when `payload.ids` is not an array;
`pinned` records JS truthiness of a client-supplied `pinned` field. -/
structure Payload where
  to_ : Option String := none
  id : Option String := none
  createdAt : Option String := none
  peerId : Option String := none
  emoji : Option String := none
  status : Option String := none
  contentType : Option String := none
  body : Option String := none
  meta : Option (List (String × String)) := none
  nonce : Option String := none
  ciphertext : Option String := none
  selfNonce : Option String := none
  selfCiphertext : Option String := none
  senderPublicKey : Option String := none
  replyToId : Option String := none
  readAt : Option String := none
  editedAt : Option String := none
  pinned : Bool := false
  reactions : Option (List (String × List String)) := none
  ids : Option (List String) := none
deriving Repr, DecidableEq

/-- JS truthiness of an optional string payload field (`!x` is true for a
missing field and for the empty string). -/
def truthy (o : Option String) : Bool :=
  match o with
  | some s => !s.isEmpty
  | none => false

/-- Outbound frames produced by `JSON.stringify` calls in ws.ts. -/
inductive OutFrame where
  | errorFrame (message : String)
  | messageReceive (m : Msg)
  | messageDelivered (id deliveredAt : String)
  | typingFrame (from_ : String)
  | messageDeleted (id from_ : String)
  | messageEdited (m : Msg) (from_ : String)
  | messagePinned (id : String) (pinned : Bool)
  | messageReacted (id : String) (reactions : List (String × List String))
  | callFrame (ty : String) (p : Payload) (from_ : String)
  | messageRead (ids : List String) (readAt : String)
  | presence (userId : String) (isOnline : Bool) (lastSeen : Option String)
deriving Repr, DecidableEq

/-- One per-identity rate-limit window (`wsRateLimits` map entry). -/
structure RateEntry where
  count : Nat
  resetAt : Nat
deriving Repr, DecidableEq

/-- The gateway's mutable state: module-level maps of ws.ts, the message
store, plus observable socket effects (which sockets are open, every frame
written, every server-initiated close with its code and reason). -/
structure GState where
  clients : List (String × Nat) := []
  onlineUsers : List (String × String) := []
  contactSubscriptions : List (String × List String) := []
  wsRateLimits : List (String × RateEntry) := []
  openSocks : List Nat := []
  store : List Msg := []
  users : List (String × String) := []
  outbox : List (Nat × OutFrame) := []
  closeLog : List (Nat × Nat × String) := []
deriving Repr, DecidableEq

def WS_RATE_LIMIT : Nat := 60
def WS_RATE_WINDOW : Nat := 10000

/-- `checkWsRate`: lazy fixed window.  A missing or expired entry is
replaced by `{count: 1, resetAt: now + window}` and admits; otherwise the
count is incremented and the frame admits iff `count <= 60`. -/
def checkWsRate (now : Nat) (userId : String)
    (lims : List (String × RateEntry)) : Bool × List (String × RateEntry) :=
  match alget lims userId with
  | none => (true, alset lims userId ⟨1, now + WS_RATE_WINDOW⟩)
  | some e =>
    if e.resetAt < now then (true, alset lims userId ⟨1, now + WS_RATE_WINDOW⟩)
    else (decide (e.count + 1 ≤ WS_RATE_LIMIT), alset lims userId ⟨e.count + 1, e.resetAt⟩)

/-- A sequence of admission checks at the given times, threading the
rate-limit map. -/
def runChecks (userId : String) (times : List Nat)
    (lims : List (String × RateEntry)) : List Bool × List (String × RateEntry) :=
  match times with
  | [] => ([], lims)
  | t :: ts =>
    let rc := checkWsRate t userId lims
    let rest := runChecks userId ts rc.2
    (rc.1 :: rest.1, rest.2)

/-- `safeSend`: write the frame only when the socket's readyState is OPEN. -/
def safeSend (sock : Nat) (f : OutFrame) (st : GState) : GState :=
  if sock ∈ st.openSocks then { st with outbox := st.outbox ++ [(sock, f)] }
  else st

/-- `notifyPresence`: send a presence frame (with the subject's last-seen
time) to every subscriber that currently has a registered client. -/
def notifyPresence (userId : String) (isOnline : Bool) (st : GState) : GState :=
  let frame := OutFrame.presence userId isOnline (alget st.onlineUsers userId)
  match alget st.contactSubscriptions userId with
  | none => st
  | some subs =>
    subs.foldl (fun acc subId =>
      match alget acc.clients subId with
      | some c => safeSend c frame acc
      | none => acc) st

/-- `subscribeToContact(userId, contactId)`: add `userId` to the (lazily
created) subscriber set of `contactId`. -/
def subscribeToContact (userId contactId : String) (st : GState) : GState :=
  let subs := (alget st.contactSubscriptions contactId).getD []
  let subs2 := if userId ∈ subs then subs else subs ++ [userId]
  { st with contactSubscriptions := alset st.contactSubscriptions contactId subs2 }

/-- The message object built by the `message.send` handler:
`{ ...payload, from: userId, deliveredAt }` passed through `toRow`
(`contentType ?? "text"`, `pinned ? 1 : 0`). -/
def mkMsg (p : Payload) (userId : String) (deliveredAt : Option String) : Msg :=
  { id := p.id.getD "", from_ := userId, to_ := p.to_.getD "",
    createdAt := p.createdAt.getD "", contentType := p.contentType.getD "text",
    body := p.body, meta := p.meta, nonce := p.nonce, ciphertext := p.ciphertext,
    selfNonce := p.selfNonce, selfCiphertext := p.selfCiphertext,
    senderPublicKey := p.senderPublicKey, deliveredAt := deliveredAt,
    readAt := p.readAt, editedAt := p.editedAt, replyToId := p.replyToId,
    pinned := p.pinned, reactions := p.reactions }

/-- The `message.send` branch: validate `to`/`id`/`createdAt`, subscribe
both directions, compute `deliveredAt` from the registry, insert (a thrown
primary-key violation is caught by the loop's `catch`, keeping the effects
already performed), forward to the recipient if registered, and echo a
delivery ack iff `deliveredAt` was set. -/
def handleSend (nowIso userId : String) (sock : Nat) (p : Payload)
    (st : GState) : GState :=
  if ¬ truthy p.to_ ∨ ¬ truthy p.id ∨ ¬ truthy p.createdAt then st else
  let pto := p.to_.getD ""
  let st1 := subscribeToContact userId pto st
  let st2 := subscribeToContact pto userId st1
  let deliveredAt := if (alget st2.clients pto).isSome then some nowIso else none
  let message := mkMsg p userId deliveredAt
  match saveMessage message st2.store with
  | Except.error _ => st2
  | Except.ok store2 =>
    let st3 := { st2 with store := store2 }
    let st4 :=
      match alget st3.clients pto with
      | some c => safeSend c (OutFrame.messageReceive message) st3
      | none => st3
    match deliveredAt with
    | some d => safeSend sock (OutFrame.messageDelivered (p.id.getD "") d) st4
    | none => st4

/-- The `typing` branch. -/
def handleTyping (userId : String) (p : Payload) (st : GState) : GState :=
  if ¬ truthy p.to_ then st else
  match (p.to_.getD "") |> alget st.clients with
  | some c => safeSend c (OutFrame.typingFrame userId) st
  | none => st

/-- The `message.delete` branch: run the (sender-or-recipient) DELETE,
ignore its result, and always notify `payload.peerId`'s socket if
registered. -/
def handleDelete (userId : String) (p : Payload) (st : GState) : GState :=
  if ¬ truthy p.id then st else
  let st1 := { st with store := (deleteMessage (p.id.getD "") userId st.store).2 }
  match p.peerId.bind (alget st1.clients) with
  | some c => safeSend c (OutFrame.messageDeleted (p.id.getD "") userId) st1
  | none => st1

/-- The `message.edit` branch: run the sender-only UPDATE; since
`db.editMessage` returns the row whenever the id exists, broadcast to the
peer (if registered) and echo to the editing socket in that case. -/
def handleEdit (nowIso userId : String) (sock : Nat) (p : Payload)
    (st : GState) : GState :=
  if ¬ truthy p.id ∨ ¬ truthy p.peerId then st else
  let r := editMessage nowIso (p.id.getD "") userId
    ⟨p.ciphertext, p.nonce, p.selfCiphertext, p.selfNonce, p.senderPublicKey⟩ st.store
  let st1 := { st with store := r.2 }
  match r.1 with
  | some m =>
    let out := OutFrame.messageEdited m userId
    let st2 :=
      match p.peerId.bind (alget st1.clients) with
      | some c => safeSend c out st1
      | none => st1
    safeSend sock out st2
  | none => st1

/-- The `message.pin` branch. -/
def handlePin (userId : String) (sock : Nat) (p : Payload) (st : GState) : GState :=
  if ¬ truthy p.id ∨ ¬ truthy p.peerId then st else
  let r := togglePin (p.id.getD "") userId st.store
  let st1 := { st with store := r.2 }
  match r.1 with
  | some m =>
    let out := OutFrame.messagePinned (p.id.getD "") m.pinned
    let st2 :=
      match p.peerId.bind (alget st1.clients) with
      | some c => safeSend c out st1
      | none => st1
    safeSend sock out st2
  | none => st1

/-- The `message.react` branch. -/
def handleReact (userId : String) (sock : Nat) (p : Payload) (st : GState) : GState :=
  if ¬ truthy p.id ∨ ¬ truthy p.peerId ∨ ¬ truthy p.emoji then st else
  let r := transactReaction (p.id.getD "") userId (p.emoji.getD "") st.store
  let st1 := { st with store := r.2 }
  match r.1 with
  | some m =>
    let out := OutFrame.messageReacted (p.id.getD "") (m.reactions.getD [])
    let st2 :=
      match p.peerId.bind (alget st1.clients) with
      | some c => safeSend c out st1
      | none => st1
    safeSend sock out st2
  | none => st1

/-- The `call.offer` / `call.answer` / `call.ice` / `call.end` branch:
typed pass-through with `from` stamped server-side. -/
def handleCall (userId ty : String) (p : Payload) (st : GState) : GState :=
  if ¬ truthy p.to_ then st else
  match (p.to_.getD "") |> alget st.clients with
  | some c => safeSend c (OutFrame.callFrame ty p userId) st
  | none => st

/-- The `status.update` branch: set the user's status (truncated to 200
characters) when the user record exists. -/
def handleStatus (userId : String) (p : Payload) (st : GState) : GState :=
  if ¬ truthy p.status then st else
  match alget st.users userId with
  | some _ => { st with users := alset st.users userId ((p.status.getD "").take 200) }
  | none => st

/-- The `message.read` branch: require `ids` to be a non-empty array of at
most 100 elements, stamp `readAt` and `deliveredAt` to the same instant
for those ids, and notify `payload.peerId`'s socket if registered. -/
def handleRead (nowIso userId : String) (p : Payload) (st : GState) : GState :=
  match p.ids with
  | none => st
  | some ids =>
    if ids.length = 0 ∨ 100 < ids.length then st
    else
      let st1 := { st with
        store := batchUpdateDelivered ids (some nowIso) (some nowIso) st.store }
      match p.peerId.bind (alget st1.clients) with
      | some c => safeSend c (OutFrame.messageRead ids nowIso) st1
      | none => st1

/-- Dispatch on the frame's `type` string (the handler's chain of
mutually exclusive string comparisons; unknown types are ignored). -/
def dispatch (nowIso userId : String) (sock : Nat) (ty : String) (p : Payload)
    (st : GState) : GState :=
  if ty = "message.send" then handleSend nowIso userId sock p st
  else if ty = "typing" then handleTyping userId p st
  else if ty = "message.delete" then handleDelete userId p st
  else if ty = "message.edit" then handleEdit nowIso userId sock p st
  else if ty = "message.pin" then handlePin userId sock p st
  else if ty = "message.react" then handleReact userId sock p st
  else if ty = "call.offer" ∨ ty = "call.answer" ∨ ty = "call.ice" ∨ ty = "call.end" then
    handleCall userId ty p st
  else if ty = "status.update" then handleStatus userId p st
  else if ty = "message.read" then handleRead nowIso userId p st
  else st

/-- The `type` property of a parsed frame: absent/falsy, truthy but not a
string, or an actual string. -/
inductive TypeField where
  | missing
  | truthyNonString
  | jstr (s : String)
deriving Repr, DecidableEq

/-- The result of a successful `JSON.parse` of an inbound frame. -/
structure ParsedFrame where
  type : TypeField
  payload : Option Payload
deriving Repr, DecidableEq

/-- An inbound raw websocket message: its string length and its parse
(`none` when `JSON.parse` throws). -/
structure Raw where
  length : Nat
  parsed : Option ParsedFrame
deriving Repr, DecidableEq

/-- The body of the `try` block: drop oversized data, drop a JSON parse
failure (the `catch`), drop frames failing the
`!type || typeof type !== "string" || !payload` shape check, then
dispatch. -/
def processFrame (nowIso userId : String) (sock : Nat) (raw : Raw)
    (st : GState) : GState :=
  if 512000 < raw.length then st else
  match raw.parsed with
  | none => st
  | some pf =>
    match pf.type, pf.payload with
    | TypeField.jstr s, some p =>
      if s.isEmpty then st else dispatch nowIso userId sock s p st
    | _, _ => st

/-- The whole `socket.on("message")` callback: rate-limit first (a denied
frame gets an error frame and is dropped, the socket is not closed), then
process. -/
def handleRaw (nowMs : Nat) (nowIso userId : String) (sock : Nat) (raw : Raw)
    (st : GState) : GState :=
  let rc := checkWsRate nowMs userId st.wsRateLimits
  let st1 := { st with wsRateLimits := rc.2 }
  if rc.1 then processFrame nowIso userId sock raw st1
  else safeSend sock (OutFrame.errorFrame "rate_limited") st1

/-- Insert a socket into the open set (a connection event's socket is
open on arrival). -/
def addSock (s : Nat) (l : List Nat) : List Nat :=
  if s ∈ l then l else l ++ [s]

/-- The `wss.on("connection")` callback after successful auth: if a prior
socket is registered for the identity, differs from the new one and is
still open, close it with code 4002 and reason "replaced"; then install
the new binding, record last-seen, and fan out online presence. -/
def handleConnect (nowIso userId : String) (sock : Nat) (st : GState) : GState :=
  let st0 := { st with openSocks := addSock sock st.openSocks }
  let st1 :=
    match alget st0.clients userId with
    | some prev =>
      if prev ≠ sock ∧ prev ∈ st0.openSocks then
        { st0 with openSocks := st0.openSocks.filter (fun s => decide (s ≠ prev)),
                   closeLog := st0.closeLog ++ [(prev, 4002, "replaced")] }
      else st0
    | none => st0
  let st2 := { st1 with clients := alset st1.clients userId sock }
  let st3 := { st2 with onlineUsers := alset st2.onlineUsers userId nowIso }
  notifyPresence userId true st3

/-- The `socket.on("close")` callback: unbind, record last-seen and fan
out offline presence only when the closing socket is still the currently
registered one. -/
def handleClose (nowIso userId : String) (sock : Nat) (st : GState) : GState :=
  match alget st.clients userId with
  | some cur =>
    if cur = sock then
      let st1 := { st with clients := aldel st.clients userId }
      let st2 := { st1 with onlineUsers := alset st1.onlineUsers userId nowIso }
      notifyPresence userId false st2
    else st
  | none => st

/-! ## Basic lemmas about the store operations -/

theorem coalesce_none_left (b : Option String) : coalesce none b = b := rfl

theorem coalesce_some_left (a : String) (b : Option String) :
    coalesce (some a) b = some a := rfl

theorem coalesce_idem (a b : Option String) :
    coalesce a (coalesce a b) = coalesce a b := by
  cases a <;> rfl

/-- Looking a message up commutes with an id-preserving row update. -/
theorem getMessage_map (id : String) (f : Msg → Msg) (hf : ∀ m, (f m).id = m.id)
    (msgs : List Msg) :
    getMessage id (msgs.map f) = (getMessage id msgs).map f := by
  induction msgs with
  | nil => rfl
  | cons m t ih =>
    by_cases h : m.id = id
    · have h2 : (f m).id = id := by rw [hf]; exact h
      simp [getMessage, List.find?_cons_of_pos, h, h2]
    · have h2 : ¬ (f m).id = id := by rw [hf]; exact h
      simp only [List.map_cons, getMessage] at ih ⊢
      rw [List.find?_cons_of_neg, List.find?_cons_of_neg]
      · exact ih
      · simpa using h
      · simpa using h2

theorem getMessage_eq_some (id : String) (msgs : List Msg) (m : Msg)
    (h : getMessage id msgs = some m) : m ∈ msgs ∧ m.id = id := by
  refine ⟨List.mem_of_find?_eq_some h, ?_⟩
  have := List.find?_some h
  simpa using this

/-- The batch receipt update is the pointwise COALESCE-update of every row
whose id occurs in the batch. -/
theorem batchUpdateDelivered_eq_map (ids : List String) (d r : Option String)
    (msgs : List Msg) :
    batchUpdateDelivered ids d r msgs
      = msgs.map (fun m =>
          if m.id ∈ ids then
            { m with deliveredAt := coalesce d m.deliveredAt,
                     readAt := coalesce r m.readAt }
          else m) := by
  induction ids generalizing msgs with
  | nil => simp [batchUpdateDelivered]
  | cons id ids ih =>
    show batchUpdateDelivered ids d r (updateDelivered d r id msgs) = _
    rw [ih, updateDelivered, List.map_map]
    apply List.map_congr_left
    intro m _
    by_cases h1 : m.id = id
    · by_cases h2 : m.id ∈ ids
      · simp [Function.comp, h1, h2, coalesce_idem]
      · rw [h1] at h2
        simp [Function.comp, h1, h2]
    · by_cases h2 : m.id ∈ ids
      · simp [Function.comp, h1, h2]
      · simp [Function.comp, h1, h2]

/-! ## C3: batch receipt timestamps -/

/-- A concrete stored message whose delivery timestamp is already set. -/
def cexMsg : Msg :=
  { id := "m1", from_ := "A", to_ := "B", createdAt := "2024-01-01",
    contentType := "text", deliveredAt := some "2024-01-05", readAt := none }

/-- C3 counterexample: the claim says an already-set deliveredAt is never
overwritten with an earlier value, but `COALESCE(?, deliveredAt)` takes
the patch value whenever it is non-null: patching the stored
deliveredAt "2024-01-05" with the strictly earlier "2024-01-03" replaces
it. -/
theorem receipts_overwrite_cex :
    getMessage "m1" (batchUpdateDelivered ["m1"] (some "2024-01-03") none [cexMsg])
      = some { cexMsg with deliveredAt := some "2024-01-03" }
    ∧ ("2024-01-03" : String) < "2024-01-05"
    ∧ cexMsg.deliveredAt = some "2024-01-05" := by
  refine ⟨by decide, ?_, by decide⟩
  rw [String.lt_iff_toList_lt]; decide

/-- C3 (amended): batch-applying delivered/read timestamps guards only
against null, not against earlier values: a `none` patch field leaves the
stored timestamp unchanged, while a `some` patch field always overwrites
it (even with an earlier value); ids outside the batch are untouched, and
the operation never errors.  Hence re-sending a `message.read` batch
restamps `readAt`/`deliveredAt` to the new batch's (later) timestamp
rather than moving them backward. -/
theorem receipts_null_guard_only (ids : List String) (d r : Option String)
    (msgs : List Msg) (mid : String) (m : Msg)
    (hm : getMessage mid msgs = some m) :
    (mid ∈ ids →
      getMessage mid (batchUpdateDelivered ids d r msgs)
        = some { m with deliveredAt := coalesce d m.deliveredAt,
                        readAt := coalesce r m.readAt })
    ∧ (mid ∉ ids → getMessage mid (batchUpdateDelivered ids d r msgs) = some m)
    ∧ (d = none → coalesce d m.deliveredAt = m.deliveredAt)
    ∧ (∀ t, d = some t → coalesce d m.deliveredAt = some t)
    ∧ (r = none → coalesce r m.readAt = m.readAt)
    ∧ (∀ t, r = some t → coalesce r m.readAt = some t) := by
  have hid : m.id = mid := (getMessage_eq_some mid msgs m hm).2
  have hpres : ∀ x : Msg,
      ((fun m =>
        if m.id ∈ ids then
          { m with deliveredAt := coalesce d m.deliveredAt,
                   readAt := coalesce r m.readAt }
        else m) x).id = x.id := by
    intro x; by_cases h : x.id ∈ ids <;> simp [h]
  have hchar := batchUpdateDelivered_eq_map ids d r msgs
  refine ⟨?_, ?_, ?_, ?_, ?_, ?_⟩
  · intro hin
    rw [hchar, getMessage_map _ _ hpres, hm]
    simp [hid, hin]
  · intro hout
    rw [hchar, getMessage_map _ _ hpres, hm]
    simp [hid, hout]
  · intro h; rw [h]; rfl
  · intro t h; rw [h]; rfl
  · intro h; rw [h]; rfl
  · intro t h; rw [h]; rfl

/-- Concrete instantiation of `receipts_null_guard_only`. -/
theorem receipts_null_guard_only_witness :
    getMessage "m1" [cexMsg] = some cexMsg
    ∧ getMessage "m1" (batchUpdateDelivered ["m1"] none (some "2024-01-07") [cexMsg])
        = some { cexMsg with deliveredAt := coalesce none cexMsg.deliveredAt,
                             readAt := coalesce (some "2024-01-07") cexMsg.readAt } :=
  ⟨by decide,
   (receipts_null_guard_only ["m1"] none (some "2024-01-07") [cexMsg] "m1" cexMsg
     (by decide)).1 (by decide)⟩

/-! ## Lemmas about socket effects -/

@[simp] theorem safeSend_clients (c : Nat) (f : OutFrame) (st : GState) :
    (safeSend c f st).clients = st.clients := by
  unfold safeSend; split <;> rfl

@[simp] theorem safeSend_store (c : Nat) (f : OutFrame) (st : GState) :
    (safeSend c f st).store = st.store := by
  unfold safeSend; split <;> rfl

@[simp] theorem safeSend_openSocks (c : Nat) (f : OutFrame) (st : GState) :
    (safeSend c f st).openSocks = st.openSocks := by
  unfold safeSend; split <;> rfl

@[simp] theorem safeSend_closeLog (c : Nat) (f : OutFrame) (st : GState) :
    (safeSend c f st).closeLog = st.closeLog := by
  unfold safeSend; split <;> rfl

@[simp] theorem safeSend_contactSubscriptions (c : Nat) (f : OutFrame) (st : GState) :
    (safeSend c f st).contactSubscriptions = st.contactSubscriptions := by
  unfold safeSend; split <;> rfl

@[simp] theorem safeSend_onlineUsers (c : Nat) (f : OutFrame) (st : GState) :
    (safeSend c f st).onlineUsers = st.onlineUsers := by
  unfold safeSend; split <;> rfl

@[simp] theorem safeSend_users (c : Nat) (f : OutFrame) (st : GState) :
    (safeSend c f st).users = st.users := by
  unfold safeSend; split <;> rfl

@[simp] theorem safeSend_wsRateLimits (c : Nat) (f : OutFrame) (st : GState) :
    (safeSend c f st).wsRateLimits = st.wsRateLimits := by
  unfold safeSend; split <;> rfl

theorem safeSend_open (c : Nat) (f : OutFrame) (st : GState) (h : c ∈ st.openSocks) :
    (safeSend c f st).outbox = st.outbox ++ [(c, f)] := by
  unfold safeSend; rw [if_pos h]

/-! ## Lemmas about the message.read handler -/

theorem handleRead_store (nowIso userId : String) (p : Payload) (st : GState)
    (l : List String) (hids : p.ids = some l) (hne : l ≠ []) (hcap : l.length ≤ 100) :
    (handleRead nowIso userId p st).store
      = st.store.map (fun m =>
          if m.id ∈ l then
            { m with deliveredAt := some nowIso, readAt := some nowIso }
          else m) := by
  unfold handleRead
  rw [hids]
  have hguard : ¬ (l.length = 0 ∨ 100 < l.length) := by
    push_neg
    exact ⟨fun h => hne (List.length_eq_zero.mp h), hcap⟩
  dsimp only
  rw [if_neg hguard]
  cases hc : p.peerId.bind (alget { st with
      store := batchUpdateDelivered l (some nowIso) (some nowIso) st.store }.clients) with
  | none => simp [batchUpdateDelivered_eq_map, coalesce]
  | some c => simp [batchUpdateDelivered_eq_map, coalesce]

theorem handleRead_outbox_live (nowIso userId : String) (p : Payload) (st : GState)
    (l : List String) (c : Nat)
    (hids : p.ids = some l) (hne : l ≠ []) (hcap : l.length ≤ 100)
    (hc : p.peerId.bind (alget st.clients) = some c) (hopen : c ∈ st.openSocks) :
    (handleRead nowIso userId p st).outbox
      = st.outbox ++ [(c, OutFrame.messageRead l nowIso)] := by
  unfold handleRead
  rw [hids]
  have hguard : ¬ (l.length = 0 ∨ 100 < l.length) := by
    push_neg
    exact ⟨fun h => hne (List.length_eq_zero.mp h), hcap⟩
  dsimp only
  rw [if_neg hguard]
  have : p.peerId.bind (alget { st with
      store := batchUpdateDelivered l (some nowIso) (some nowIso) st.store }.clients)
      = some c := hc
  rw [this]
  exact safeSend_open c _ _ hopen

theorem handleRead_outbox_offline (nowIso userId : String) (p : Payload) (st : GState)
    (l : List String)
    (hids : p.ids = some l) (hne : l ≠ []) (hcap : l.length ≤ 100)
    (hc : p.peerId.bind (alget st.clients) = none) :
    (handleRead nowIso userId p st).outbox = st.outbox := by
  unfold handleRead
  rw [hids]
  have hguard : ¬ (l.length = 0 ∨ 100 < l.length) := by
    push_neg
    exact ⟨fun h => hne (List.length_eq_zero.mp h), hcap⟩
  dsimp only
  rw [if_neg hguard]
  have : p.peerId.bind (alget { st with
      store := batchUpdateDelivered l (some nowIso) (some nowIso) st.store }.clients)
      = none := hc
  rw [this]

theorem handleRead_invalid (nowIso userId : String) (p : Payload) (st : GState)
    (hbad : p.ids = none ∨ p.ids = some [] ∨
      (∃ l, p.ids = some l ∧ 100 < l.length)) :
    handleRead nowIso userId p st = st := by
  unfold handleRead
  rcases hbad with h | h | ⟨l, h, hlen⟩
  · rw [h]
  · rw [h]; simp
  · rw [h]
    have : l.length = 0 ∨ 100 < l.length := Or.inr hlen
    dsimp only
    rw [if_pos this]

/-! ## C7 and C9: the message.read handler -/

/-- C7: a `message.read` frame whose `ids` is a non-empty array of at most
100 ids stamps both `readAt` and `deliveredAt` to the same timestamp for
every listed id (messages outside the list are untouched) and sends a
`message.read` frame to the peer's socket exactly when the peer is
registered (and its socket open); a frame whose ids field is not an
array, is empty, or has more than 100 entries causes no store mutation
and no outbound frame. -/
theorem read_batch_contract (nowIso userId : String) (p : Payload) (st : GState)
    (l : List String) (hids : p.ids = some l) (hne : l ≠ [])
    (hcap : l.length ≤ 100) :
    ((handleRead nowIso userId p st).store
      = st.store.map (fun m =>
          if m.id ∈ l then
            { m with deliveredAt := some nowIso, readAt := some nowIso }
          else m))
    ∧ (∀ c, p.peerId.bind (alget st.clients) = some c → c ∈ st.openSocks →
        (handleRead nowIso userId p st).outbox
          = st.outbox ++ [(c, OutFrame.messageRead l nowIso)])
    ∧ (p.peerId.bind (alget st.clients) = none →
        (handleRead nowIso userId p st).outbox = st.outbox)
    ∧ (∀ p' : Payload,
        (p'.ids = none ∨ p'.ids = some [] ∨ (∃ l', p'.ids = some l' ∧ 100 < l'.length)) →
        handleRead nowIso userId p' st = st) :=
  ⟨handleRead_store nowIso userId p st l hids hne hcap,
   fun c hc hopen => handleRead_outbox_live nowIso userId p st l c hids hne hcap hc hopen,
   fun hc => handleRead_outbox_offline nowIso userId p st l hids hne hcap hc,
   fun p' hbad => handleRead_invalid nowIso userId p' st hbad⟩

/-- A concrete gateway state: identity "A" is registered on open socket 1
and message `cexMsg` (from "A" to "B") is stored. -/
def stRead : GState :=
  { clients := [("A", 1)], openSocks := [1], store := [cexMsg] }

/-- Concrete instantiation of `read_batch_contract`. -/
theorem read_batch_contract_witness :
    ((handleRead "T9" "B" { peerId := some "A", ids := some ["m1"] } stRead).store
      = stRead.store.map (fun m =>
          if m.id ∈ ["m1"] then
            { m with deliveredAt := some "T9", readAt := some "T9" }
          else m))
    ∧ ((handleRead "T9" "B" { peerId := some "A", ids := some ["m1"] } stRead).outbox
        = stRead.outbox ++ [(1, OutFrame.messageRead ["m1"] "T9")]) :=
  ⟨(read_batch_contract "T9" "B" { peerId := some "A", ids := some ["m1"] } stRead
      ["m1"] (by decide) (by decide) (by decide)).1,
   (read_batch_contract "T9" "B" { peerId := some "A", ids := some ["m1"] } stRead
      ["m1"] (by decide) (by decide) (by decide)).2.1 1 (by decide) (by decide)⟩

/-- C9: the `message.read` path performs no ownership check: a message
whose sender and recipient both differ from the requesting identity is
still restamped to the requester's timestamp when its id is listed. -/
theorem read_unchecked_ownership (nowIso userId : String) (p : Payload)
    (st : GState) (l : List String) (m : Msg)
    (hids : p.ids = some l) (hne : l ≠ []) (hcap : l.length ≤ 100)
    (hmem : m ∈ st.store) (hin : m.id ∈ l)
    (hfrom : m.from_ ≠ userId) (hto : m.to_ ≠ userId) :
    { m with deliveredAt := some nowIso, readAt := some nowIso }
      ∈ (handleRead nowIso userId p st).store := by
  rw [handleRead_store nowIso userId p st l hids hne hcap]
  refine List.mem_map.mpr ⟨m, hmem, ?_⟩
  rw [if_pos hin]

/-- Concrete instantiation of `read_unchecked_ownership`: identity "Z" is
neither the sender "A" nor the recipient "B" of `cexMsg`, yet its
`message.read` restamps it. -/
theorem read_unchecked_ownership_witness :
    cexMsg.from_ ≠ "Z" ∧ cexMsg.to_ ≠ "Z"
    ∧ { cexMsg with deliveredAt := some "T9", readAt := some "T9" }
        ∈ (handleRead "T9" "Z" { peerId := some "A", ids := some ["m1"] } stRead).store :=
  ⟨by decide, by decide,
   read_unchecked_ownership "T9" "Z" { peerId := some "A", ids := some ["m1"] }
     stRead ["m1"] cexMsg (by decide) (by decide) (by decide) (by decide)
     (by decide) (by decide) (by decide)⟩

/-! ## Association-list lemmas -/

theorem alget_alset_self {α : Type} (l : List (String × α)) (k : String) (v : α) :
    alget (alset l k v) k = some v := by
  induction l with
  | nil => simp [alset, alget]
  | cons hd t ih =>
    obtain ⟨k0, v0⟩ := hd
    by_cases hk : k0 = k
    · simp [alset, alget, hk]
    · simp [alset, alget, hk, ih]

theorem alget_alset_ne {α : Type} (l : List (String × α)) (k k' : String) (v : α)
    (h : k' ≠ k) :
    alget (alset l k v) k' = alget l k' := by
  induction l with
  | nil =>
    simp only [alset, alget]
    rw [if_neg (fun e => h e.symm)]
  | cons hd t ih =>
    obtain ⟨k0, v0⟩ := hd
    by_cases hk : k0 = k
    · subst hk
      have hne : ¬ k0 = k' := fun e => h e.symm
      simp [alset, alget, hne]
    · by_cases hk' : k0 = k'
      · simp [alset, alget, hk, hk', h]
      · simp [alset, alget, hk, hk', ih]

/-! ## Lemmas about presence subscriptions -/

@[simp] theorem subscribeToContact_clients (a b : String) (st : GState) :
    (subscribeToContact a b st).clients = st.clients := rfl

@[simp] theorem subscribeToContact_store (a b : String) (st : GState) :
    (subscribeToContact a b st).store = st.store := rfl

@[simp] theorem subscribeToContact_outbox (a b : String) (st : GState) :
    (subscribeToContact a b st).outbox = st.outbox := rfl

@[simp] theorem subscribeToContact_openSocks (a b : String) (st : GState) :
    (subscribeToContact a b st).openSocks = st.openSocks := rfl

@[simp] theorem subscribeToContact_onlineUsers (a b : String) (st : GState) :
    (subscribeToContact a b st).onlineUsers = st.onlineUsers := rfl

@[simp] theorem subscribeToContact_users (a b : String) (st : GState) :
    (subscribeToContact a b st).users = st.users := rfl

@[simp] theorem subscribeToContact_wsRateLimits (a b : String) (st : GState) :
    (subscribeToContact a b st).wsRateLimits = st.wsRateLimits := rfl

@[simp] theorem subscribeToContact_closeLog (a b : String) (st : GState) :
    (subscribeToContact a b st).closeLog = st.closeLog := rfl

/-- After `subscribeToContact a b`, `a` is in `b`'s subscriber set. -/
theorem subscribeToContact_mem (a b : String) (st : GState) :
    a ∈ (alget (subscribeToContact a b st).contactSubscriptions b).getD [] := by
  unfold subscribeToContact
  by_cases h : a ∈ (alget st.contactSubscriptions b).getD []
  · simp [alget_alset_self, h]
  · simp [alget_alset_self, h]

/-- `subscribeToContact` never removes an existing subscription. -/
theorem subscribeToContact_mem_mono (a b x k : String) (st : GState)
    (h : x ∈ (alget st.contactSubscriptions k).getD []) :
    x ∈ (alget (subscribeToContact a b st).contactSubscriptions k).getD [] := by
  unfold subscribeToContact
  by_cases hk : k = b
  · subst hk
    by_cases ha : a ∈ (alget st.contactSubscriptions k).getD []
    · simp [alget_alset_self, ha, h]
    · simp only [alget_alset_self, ha, if_neg, Option.getD_some]
      exact List.mem_append_left _ h
  · rw [alget_alset_ne _ _ _ _ hk]
    exact h

/-! ## Characterization of the message.send handler -/

/-- With a valid payload and a fresh id, `handleSend` runs to completion:
subscriptions first, then the insert, then the conditional forward and
ack. -/
theorem handleSend_run (nowIso userId : String) (sock : Nat) (p : Payload)
    (st : GState)
    (hto : truthy p.to_ = true) (hid : truthy p.id = true)
    (hca : truthy p.createdAt = true)
    (hfresh : ∀ m ∈ st.store, ¬ m.id = p.id.getD "") :
    handleSend nowIso userId sock p st =
      (match alget st.clients (p.to_.getD "") with
       | some c =>
         safeSend sock (OutFrame.messageDelivered (p.id.getD "") nowIso)
           (safeSend c (OutFrame.messageReceive (mkMsg p userId (some nowIso)))
             { subscribeToContact (p.to_.getD "") userId
                 (subscribeToContact userId (p.to_.getD "") st) with
               store := st.store ++ [mkMsg p userId (some nowIso)] })
       | none =>
         { subscribeToContact (p.to_.getD "") userId
             (subscribeToContact userId (p.to_.getD "") st) with
           store := st.store ++ [mkMsg p userId none] }) := by
  have hguard : ¬(¬ truthy p.to_ = true ∨ ¬ truthy p.id = true ∨
      ¬ truthy p.createdAt = true) := by
    simp [hto, hid, hca]
  have hanyf : ∀ (d : Option String),
      saveMessage (mkMsg p userId d) st.store
        = Except.ok (st.store ++ [mkMsg p userId d]) := by
    intro d
    unfold saveMessage
    rw [if_neg]
    simp only [List.any_eq_true, not_exists]
    intro x
    simp only [decide_eq_true_eq, not_and]
    exact fun hx => hfresh x hx
  unfold handleSend
  rw [if_neg hguard]
  cases hlive : alget st.clients (p.to_.getD "") with
  | some c =>
    simp only [subscribeToContact_clients, hlive, Option.isSome_some, if_pos]
    rw [show (subscribeToContact (p.to_.getD "") userId
      (subscribeToContact userId (p.to_.getD "") st)).store = st.store from rfl]
    rw [hanyf (some nowIso)]
  | none =>
    simp only [subscribeToContact_clients, hlive, Option.isSome_none, Bool.false_eq_true,
      if_neg, ite_false]
    rw [show (subscribeToContact (p.to_.getD "") userId
      (subscribeToContact userId (p.to_.getD "") st)).store = st.store from rfl]
    rw [hanyf none]

/-! ## C1: message.send delivery contract -/

/-- C1: for a validated `message.send` payload (truthy `to`, `id`,
`createdAt`) with an id not yet stored, sent from an open socket in a
state whose registered sockets are open: the message is persisted with
`deliveredAt` set iff the recipient has a registered connection; the full
envelope is forwarded to the recipient's socket and a `message.delivered`
ack with the same id is echoed to the sender exactly when the recipient
is live (exactly one frame each); no frame is sent when the recipient is
offline. -/
theorem send_delivery_contract (nowIso userId : String) (sock : Nat) (p : Payload)
    (st : GState)
    (hto : truthy p.to_ = true) (hid : truthy p.id = true)
    (hca : truthy p.createdAt = true)
    (hfresh : ∀ m ∈ st.store, ¬ m.id = p.id.getD "")
    (hreg : ∀ u s, alget st.clients u = some s → s ∈ st.openSocks)
    (hsock : sock ∈ st.openSocks) :
    ((handleSend nowIso userId sock p st).store
      = st.store ++ [mkMsg p userId
          (if (alget st.clients (p.to_.getD "")).isSome then some nowIso else none)])
    ∧ ((mkMsg p userId
          (if (alget st.clients (p.to_.getD "")).isSome then some nowIso else none)).deliveredAt
        = some nowIso ↔ (alget st.clients (p.to_.getD "")).isSome = true)
    ∧ (∀ c, alget st.clients (p.to_.getD "") = some c →
        (handleSend nowIso userId sock p st).outbox
          = st.outbox ++ [(c, OutFrame.messageReceive (mkMsg p userId (some nowIso))),
                          (sock, OutFrame.messageDelivered (p.id.getD "") nowIso)])
    ∧ (alget st.clients (p.to_.getD "") = none →
        (handleSend nowIso userId sock p st).outbox = st.outbox) := by
  rw [handleSend_run nowIso userId sock p st hto hid hca hfresh]
  cases hlive : alget st.clients (p.to_.getD "") with
  | some c =>
    have hcopen : c ∈ st.openSocks := hreg _ _ hlive
    refine ⟨?_, ?_, ?_, ?_⟩
    · simp
    · simp [mkMsg]
    · intro c' hc'
      cases hc'
      dsimp only
      have hs2 : c ∈ ({ subscribeToContact (p.to_.getD "") userId
            (subscribeToContact userId (p.to_.getD "") st) with
          store := st.store ++ [mkMsg p userId (some nowIso)] } : GState).openSocks := by
        simp [hcopen]
      have hs1 : sock ∈ (safeSend c
          (OutFrame.messageReceive (mkMsg p userId (some nowIso)))
          { subscribeToContact (p.to_.getD "") userId
              (subscribeToContact userId (p.to_.getD "") st) with
            store := st.store ++ [mkMsg p userId (some nowIso)] }).openSocks := by
        simp [hsock]
      rw [safeSend_open _ _ _ hs1, safeSend_open _ _ _ hs2]
      simp
    · intro hc
      cases hc
  | none =>
    refine ⟨?_, ?_, ?_, ?_⟩
    · rfl
    · simp [mkMsg]
    · intro c' hc'
      cases hc'
    · intro _
      rfl

/-- A concrete payload for the send scenarios. -/
def pSend : Payload := { to_ := some "B", id := some "m1", createdAt := some "T0" }

/-- A concrete state: recipient "B" registered on open socket 2, the
sender speaks on open socket 1, empty store. -/
def stSend : GState := { clients := [("B", 2)], openSocks := [1, 2] }

/-- Concrete instantiation of `send_delivery_contract`. -/
theorem send_delivery_contract_witness :
    ((handleSend "T1" "A" 1 pSend stSend).store
      = stSend.store ++ [mkMsg pSend "A"
          (if (alget stSend.clients (pSend.to_.getD "")).isSome then some "T1" else none)])
    ∧ ((handleSend "T1" "A" 1 pSend stSend).outbox
      = stSend.outbox ++ [(2, OutFrame.messageReceive (mkMsg pSend "A" (some "T1"))),
                          (1, OutFrame.messageDelivered (pSend.id.getD "") "T1")]) := by
  have hreg : ∀ u s, alget stSend.clients u = some s → s ∈ stSend.openSocks := by
    intro u s h
    by_cases hu : ("B" : String) = u
    · rw [show alget stSend.clients u = if ("B" : String) = u then some 2 else none from rfl,
        if_pos hu] at h
      cases h
      decide
    · rw [show alget stSend.clients u = if ("B" : String) = u then some 2 else none from rfl,
        if_neg hu] at h
      cases h
  have h := send_delivery_contract "T1" "A" 1 pSend stSend (by decide) (by decide)
    (by decide) (by decide) hreg (by decide)
  exact ⟨h.1, h.2.2.1 2 (by decide)⟩

/-! ## C10: duplicate message id -/

/-- C10: a `message.send` whose id is already persisted establishes the
bidirectional presence subscription, then the INSERT hits the primary-key
constraint and the loop's catch swallows it: the store is unchanged and no
`message.receive` or `message.delivered` frame is sent; the final state is
exactly the input state with the two subscriptions recorded. -/
theorem duplicate_send_swallowed (nowIso userId : String) (sock : Nat) (p : Payload)
    (st : GState)
    (hto : truthy p.to_ = true) (hid : truthy p.id = true)
    (hca : truthy p.createdAt = true)
    (hdup : ∃ m ∈ st.store, m.id = p.id.getD "") :
    (handleSend nowIso userId sock p st
      = subscribeToContact (p.to_.getD "") userId
          (subscribeToContact userId (p.to_.getD "") st))
    ∧ (handleSend nowIso userId sock p st).store = st.store
    ∧ (handleSend nowIso userId sock p st).outbox = st.outbox
    ∧ userId ∈ (alget (handleSend nowIso userId sock p st).contactSubscriptions
        (p.to_.getD "")).getD []
    ∧ (p.to_.getD "") ∈ (alget (handleSend nowIso userId sock p st).contactSubscriptions
        userId).getD [] := by
  have hguard : ¬(¬ truthy p.to_ = true ∨ ¬ truthy p.id = true ∨
      ¬ truthy p.createdAt = true) := by
    simp [hto, hid, hca]
  have herr : ∀ (d : Option String),
      saveMessage (mkMsg p userId d) st.store = Except.error () := by
    intro d
    unfold saveMessage
    rw [if_pos]
    rw [List.any_eq_true]
    obtain ⟨m, hm, he⟩ := hdup
    exact ⟨m, hm, by simp [mkMsg, he]⟩
  have hrun : handleSend nowIso userId sock p st
      = subscribeToContact (p.to_.getD "") userId
          (subscribeToContact userId (p.to_.getD "") st) := by
    unfold handleSend
    rw [if_neg hguard]
    cases hlive : alget st.clients (p.to_.getD "") with
    | some c =>
      simp only [subscribeToContact_clients, hlive, Option.isSome_some, if_pos]
      rw [show (subscribeToContact (p.to_.getD "") userId
        (subscribeToContact userId (p.to_.getD "") st)).store = st.store from rfl]
      rw [herr (some nowIso)]
    | none =>
      simp only [subscribeToContact_clients, hlive, Option.isSome_none,
        Bool.false_eq_true, if_neg, ite_false]
      rw [show (subscribeToContact (p.to_.getD "") userId
        (subscribeToContact userId (p.to_.getD "") st)).store = st.store from rfl]
      rw [herr none]
  refine ⟨hrun, ?_, ?_, ?_, ?_⟩
  · rw [hrun]; rfl
  · rw [hrun]; rfl
  · rw [hrun]
    exact subscribeToContact_mem_mono _ _ _ _ _ (subscribeToContact_mem userId _ st)
  · rw [hrun]
    exact subscribeToContact_mem (p.to_.getD "") userId _

/-- The state for the duplicate-send scenario: `cexMsg` (id "m1") is
already stored. -/
def stDup : GState := { store := [cexMsg] }

/-- Concrete instantiation of `duplicate_send_swallowed`. -/
theorem duplicate_send_swallowed_witness :
    (handleSend "T1" "A" 1 pSend stDup).store = stDup.store
    ∧ (handleSend "T1" "A" 1 pSend stDup).outbox = stDup.outbox
    ∧ "A" ∈ (alget (handleSend "T1" "A" 1 pSend stDup).contactSubscriptions
        "B").getD [] := by
  have h := duplicate_send_swallowed "T1" "A" 1 pSend stDup (by decide) (by decide)
    (by decide) (by decide)
  exact ⟨h.2.1, h.2.2.1, h.2.2.2.1⟩

/-! ## C4: edit/delete authorization -/

/-- A message authored by "A" to recipient "B". -/
def msgA : Msg :=
  { id := "m1", from_ := "A", to_ := "B", createdAt := "T0", contentType := "text" }

/-- A state where author "A" is live on socket 1, socket 2 (the attacker
"B"'s connection) is open, and `msgA` is stored. -/
def stC4 : GState := { clients := [("A", 1)], openSocks := [1, 2], store := [msgA] }

/-- The attacking payload: B targets A's message with peerId "A". -/
def pc4 : Payload := { id := some "m1", peerId := some "A" }

/-- C4 counterexample: identity "B" (not the author) sends
`message.delete` for A's message and the stored message is removed ("from"
OR "to" matches the recipient), refuting "leaves the stored message
unchanged"; "B"'s `message.edit` of the same message leaves the store
unchanged but still broadcasts `message.edited` frames to the peer and
back to the editor, refuting "causes no broadcast frame". -/
theorem edit_delete_auth_cex :
    ((handleDelete "B" pc4 stC4).store = [] ∧ msgA.from_ = "A" ∧ ("B" : String) ≠ "A")
    ∧ ((handleEdit "T2" "B" 2 pc4 stC4).store = stC4.store
        ∧ (handleEdit "T2" "B" 2 pc4 stC4).outbox
            = [(1, OutFrame.messageEdited msgA "B"),
               (2, OutFrame.messageEdited msgA "B")]) := by
  decide

/-- With a truthy id, `handleDelete` always runs the DELETE and then
notifies the peerId socket when registered. -/
theorem handleDelete_run (userId : String) (p : Payload) (st : GState)
    (hid : truthy p.id = true) :
    handleDelete userId p st =
      (match p.peerId.bind (alget st.clients) with
       | some c => safeSend c (OutFrame.messageDeleted (p.id.getD "") userId)
           { st with store := (deleteMessage (p.id.getD "") userId st.store).2 }
       | none => { st with store := (deleteMessage (p.id.getD "") userId st.store).2 }) := by
  unfold handleDelete
  rw [if_neg (by simp [hid])]

/-- C4 (amended): a `message.edit` from a non-author leaves the store
unchanged, but when the targeted message exists the handler still
broadcasts a `message.edited` frame carrying the unchanged message (echoed
to the editing socket, and also sent to the peerId socket when live);
only a nonexistent id is a complete no-op.  A `message.delete` from a
non-author leaves the store unchanged only when the deleter is also not
the recipient — the recipient's delete removes the message — and in every
case a `message.deleted` frame is still sent to the peerId socket when
live. -/
theorem edit_delete_auth_amended (nowIso userId : String) (sock : Nat)
    (p : Payload) (st : GState)
    (hid : truthy p.id = true) (hpeer : truthy p.peerId = true)
    (hnota : ∀ m ∈ st.store, m.id = p.id.getD "" → ¬ m.from_ = userId) :
    ((handleEdit nowIso userId sock p st).store = st.store)
    ∧ (∀ m, getMessage (p.id.getD "") st.store = some m → sock ∈ st.openSocks →
        p.peerId.bind (alget st.clients) = none →
        (handleEdit nowIso userId sock p st).outbox
          = st.outbox ++ [(sock, OutFrame.messageEdited m userId)])
    ∧ (∀ m c, getMessage (p.id.getD "") st.store = some m → sock ∈ st.openSocks →
        p.peerId.bind (alget st.clients) = some c → c ∈ st.openSocks →
        (handleEdit nowIso userId sock p st).outbox
          = st.outbox ++ [(c, OutFrame.messageEdited m userId),
                          (sock, OutFrame.messageEdited m userId)])
    ∧ (getMessage (p.id.getD "") st.store = none →
        handleEdit nowIso userId sock p st = st)
    ∧ ((∀ m ∈ st.store, ¬ (m.id = p.id.getD "" ∧ (m.from_ = userId ∨ m.to_ = userId))) →
        (handleDelete userId p st).store = st.store)
    ∧ (∀ m ∈ st.store, m.id = p.id.getD "" → (m.from_ = userId ∨ m.to_ = userId) →
        m ∉ (handleDelete userId p st).store)
    ∧ (∀ c, p.peerId.bind (alget st.clients) = some c → c ∈ st.openSocks →
        (handleDelete userId p st).outbox
          = st.outbox ++ [(c, OutFrame.messageDeleted (p.id.getD "") userId)]) := by
  have hguard : ¬(¬ truthy p.id = true ∨ ¬ truthy p.peerId = true) := by
    simp [hid, hpeer]
  have hdguard : ¬(¬ truthy p.id = true) := by simp [hid]
  have hmapid : st.store.map (fun m =>
      if m.id = p.id.getD "" ∧ m.from_ = userId then
        { m with ciphertext := p.ciphertext, nonce := p.nonce,
                 selfCiphertext := p.selfCiphertext, selfNonce := p.selfNonce,
                 senderPublicKey := p.senderPublicKey, editedAt := some nowIso }
      else m) = st.store := by
    have := List.map_congr_left (l := st.store)
      (f := fun m =>
        if m.id = p.id.getD "" ∧ m.from_ = userId then
          { m with ciphertext := p.ciphertext, nonce := p.nonce,
                   selfCiphertext := p.selfCiphertext, selfNonce := p.selfNonce,
                   senderPublicKey := p.senderPublicKey, editedAt := some nowIso }
        else m)
      (g := id)
      (fun m hm => by
        dsimp only
        have hcond : ¬(m.id = p.id.getD "" ∧ m.from_ = userId) := by
          rintro ⟨h1, h2⟩
          exact hnota m hm h1 h2
        rw [if_neg hcond]
        rfl)
    rw [this, List.map_id]
  have hedit : editMessage nowIso (p.id.getD "") userId
      ⟨p.ciphertext, p.nonce, p.selfCiphertext, p.selfNonce, p.senderPublicKey⟩ st.store
      = (getMessage (p.id.getD "") st.store, st.store) := by
    unfold editMessage
    rw [hmapid]
  refine ⟨?_, ?_, ?_, ?_, ?_, ?_, ?_⟩
  · unfold handleEdit
    rw [if_neg hguard, hedit]
    cases hg : getMessage (p.id.getD "") st.store with
    | none => rfl
    | some m =>
      dsimp only
      cases hb : p.peerId.bind (alget ({ st with store := st.store } : GState).clients) with
      | none => simp
      | some c => simp
  · intro m hg hsock hb
    unfold handleEdit
    rw [if_neg hguard, hedit, hg]
    dsimp only
    have hb' : p.peerId.bind (alget ({ st with store := st.store } : GState).clients)
        = none := hb
    rw [hb']
    dsimp only
    have : sock ∈ ({ st with store := st.store } : GState).openSocks := hsock
    rw [safeSend_open _ _ _ this]
  · intro m c hg hsock hb hc
    unfold handleEdit
    rw [if_neg hguard, hedit, hg]
    dsimp only
    have hb' : p.peerId.bind (alget ({ st with store := st.store } : GState).clients)
        = some c := hb
    rw [hb']
    dsimp only
    have h1 : c ∈ ({ st with store := st.store } : GState).openSocks := hc
    have h2 : sock ∈ (safeSend c (OutFrame.messageEdited m userId)
        { st with store := st.store }).openSocks := by
      rw [safeSend_openSocks]; exact hsock
    rw [safeSend_open _ _ _ h2, safeSend_open _ _ _ h1]
    simp
  · intro hg
    unfold handleEdit
    rw [if_neg hguard, hedit, hg]
  · intro hall
    rw [handleDelete_run userId p st hid]
    have hfilter : (deleteMessage (p.id.getD "") userId st.store).2 = st.store := by
      unfold deleteMessage
      dsimp only
      rw [List.filter_eq_self.mpr]
      intro m hm
      rw [Bool.not_eq_true', decide_eq_false_iff_not]
      exact hall m hm
    cases hb : p.peerId.bind (alget st.clients) with
    | none => simp [hfilter]
    | some c => simp [hfilter]
  · intro m hm h1 h2
    rw [handleDelete_run userId p st hid]
    have hnotmem : m ∉ (deleteMessage (p.id.getD "") userId st.store).2 := by
      unfold deleteMessage
      dsimp only
      intro hmem
      have := (List.mem_filter.mp hmem).2
      simp only [Bool.not_eq_true', decide_eq_false_iff_not] at this
      exact this ⟨h1, h2⟩
    cases hb : p.peerId.bind (alget st.clients) with
    | none => simpa using hnotmem
    | some c =>
      dsimp only
      rw [show ((safeSend c (OutFrame.messageDeleted (p.id.getD "") userId)
        { st with store := (deleteMessage (p.id.getD "") userId st.store).2 }).store)
        = ({ st with store := (deleteMessage (p.id.getD "") userId st.store).2 } : GState).store
        from safeSend_store _ _ _]
      exact hnotmem
  · intro c hb hc
    rw [handleDelete_run userId p st hid, hb]
    dsimp only
    have : c ∈ ({ st with
        store := (deleteMessage (p.id.getD "") userId st.store).2 } : GState).openSocks := hc
    rw [safeSend_open _ _ _ this]

/-- Concrete instantiation of `edit_delete_auth_amended`: identity "Z" is
neither author nor recipient of `msgA`, so its delete leaves the store
unchanged, yet the `message.deleted` broadcast still reaches A's socket. -/
theorem edit_delete_auth_amended_witness :
    (handleDelete "Z" pc4 stC4).store = stC4.store
    ∧ (handleDelete "Z" pc4 stC4).outbox
        = stC4.outbox ++ [(1, OutFrame.messageDeleted "m1" "Z")] := by
  have h := edit_delete_auth_amended "T2" "Z" 2 pc4 stC4 (by decide) (by decide)
    (by decide)
  exact ⟨h.2.2.2.2.1 (by decide), h.2.2.2.2.2.2 1 (by decide) (by decide)⟩

/-! ## More association-list lemmas, for the reaction toggle -/

theorem alget_append {α : Type} (l l2 : List (String × α)) (k : String) :
    alget (l ++ l2) k
      = match alget l k with
        | some v => some v
        | none => alget l2 k := by
  induction l with
  | nil => rfl
  | cons hd t ih =>
    obtain ⟨k0, v0⟩ := hd
    by_cases h : k0 = k <;> simp [alget, h, ih]

theorem alget_append_self {α : Type} (l : List (String × α)) (k : String) (w : α)
    (h : alget l k = none) : alget (l ++ [(k, w)]) k = some w := by
  rw [alget_append, h]
  simp [alget]

theorem alset_absent {α : Type} (l : List (String × α)) (k : String) (v : α)
    (h : alget l k = none) : alset l k v = l ++ [(k, v)] := by
  induction l with
  | nil => rfl
  | cons hd t ih =>
    obtain ⟨k0, v0⟩ := hd
    by_cases hk : k0 = k
    · rw [alget, if_pos hk] at h
      cases h
    · rw [alget, if_neg hk] at h
      simp [alset, hk, ih h]

theorem alset_append_self {α : Type} (l : List (String × α)) (k : String) (w v : α)
    (h : alget l k = none) : alset (l ++ [(k, w)]) k v = l ++ [(k, v)] := by
  induction l with
  | nil => simp [alset]
  | cons hd t ih =>
    obtain ⟨k0, v0⟩ := hd
    by_cases hk : k0 = k
    · rw [alget, if_pos hk] at h
      cases h
    · rw [alget, if_neg hk] at h
      simp [alset, hk, ih h]

theorem aldel_append_self {α : Type} (l : List (String × α)) (k : String) (w : α)
    (h : alget l k = none) : aldel (l ++ [(k, w)]) k = l := by
  induction l with
  | nil => simp [aldel]
  | cons hd t ih =>
    obtain ⟨k0, v0⟩ := hd
    by_cases hk : k0 = k
    · rw [alget, if_pos hk] at h
      cases h
    · rw [alget, if_neg hk] at h
      simp [aldel, hk, ih h]

theorem alget_aldel_ne {α : Type} (l : List (String × α)) (k k' : String)
    (h : k' ≠ k) : alget (aldel l k) k' = alget l k' := by
  induction l with
  | nil => rfl
  | cons hd t ih =>
    obtain ⟨k0, v0⟩ := hd
    by_cases hk : k0 = k
    · subst hk
      have : ¬ k0 = k' := fun e => h e.symm
      simp [aldel, alget, this]
    · by_cases hk' : k0 = k'
      · simp [aldel, alget, hk, hk', h]
      · simp [aldel, alget, hk, hk', ih]

theorem alget_eq_none {α : Type} (l : List (String × α)) (k : String)
    (h : k ∉ l.map Prod.fst) : alget l k = none := by
  induction l with
  | nil => rfl
  | cons hd t ih =>
    obtain ⟨k0, v0⟩ := hd
    simp only [List.map_cons, List.mem_cons, not_or] at h
    rw [alget, if_neg (fun e => h.1 e.symm)]
    exact ih h.2

theorem alget_aldel_self_nodup {α : Type} (l : List (String × α)) (k : String)
    (h : (l.map Prod.fst).Nodup) : alget (aldel l k) k = none := by
  induction l with
  | nil => rfl
  | cons hd t ih =>
    obtain ⟨k0, v0⟩ := hd
    simp only [List.map_cons, List.nodup_cons] at h
    by_cases hk : k0 = k
    · rw [aldel, if_pos hk]
      subst hk
      exact alget_eq_none t k0 h.1
    · rw [aldel, if_neg hk, alget, if_neg hk]
      exact ih h.2

/-! ## The two normal forms of the reaction toggle -/

/-- Toggling an emoji with no existing entry records exactly the toggling
user (appended at the end, as JS object key creation does). -/
theorem toggleReactions_absent (u e : String) (l : List (String × List String))
    (h : alget l e = none) : toggleReactions u e l = l ++ [(e, [u])] := by
  unfold toggleReactions
  rw [alset_absent _ _ _ h, h]
  simp only [Option.isSome_none, Bool.false_eq_true, if_false,
    alget_append_self _ _ _ h, Option.getD_some, List.not_mem_nil, if_neg,
    alset_append_self _ _ _ _ h]

/-- Toggling an emoji whose entry is exactly `[u]` removes the key. -/
theorem toggleReactions_single (u e : String) (l : List (String × List String))
    (h : alget l e = some [u]) : toggleReactions u e l = aldel l e := by
  unfold toggleReactions
  simp [h, List.erase_cons_head]

/-- Double-toggling by the same user on the same emoji restores the
reaction map (as a key-value map) whenever the emoji's prior entry is
absent or exactly the toggling user's singleton. -/
theorem toggleReactions_involutive (u e : String) (rs0 : List (String × List String))
    (hnodup : (rs0.map Prod.fst).Nodup)
    (hprior : alget rs0 e = none ∨ alget rs0 e = some [u]) :
    ∀ k, alget (toggleReactions u e (toggleReactions u e rs0)) k = alget rs0 k := by
  intro k
  rcases hprior with h | h
  · rw [toggleReactions_absent u e rs0 h,
      toggleReactions_single u e _ (alget_append_self _ _ _ h),
      aldel_append_self _ _ _ h]
  · have hdel : alget (aldel rs0 e) e = none := alget_aldel_self_nodup rs0 e hnodup
    rw [toggleReactions_single u e rs0 h, toggleReactions_absent u e _ hdel]
    by_cases hk : k = e
    · subst hk
      rw [alget_append_self _ _ _ hdel, h]
    · rw [alget_append]
      rw [alget_aldel_ne _ _ _ hk]
      cases halg : alget rs0 k with
      | some v => rfl
      | none =>
        dsimp only
        rw [alget, if_neg (fun ee => hk ee.symm)]
        rfl

/-! ## C5: reaction toggling -/

/-- A stored message on which "v" has already reacted with "heart". -/
def msgR : Msg :=
  { id := "m1", from_ := "A", to_ := "B", createdAt := "T0", contentType := "text",
    reactions := some [("heart", ["v"])] }

/-- C5 counterexample: "u" toggles "heart" twice on a message where "v"
had already reacted with "heart".  The add branch executes
`reactions[emoji] = [userId]`, wiping "v"'s reaction, and the second
toggle then deletes the key entirely: the final reaction map is empty
instead of the prior `heart -> [v]`. -/
theorem reaction_toggle_cex :
    ((transactReaction "m1" "u" "heart"
        (transactReaction "m1" "u" "heart" [msgR]).2).2
      = [{ msgR with reactions := some [] }])
    ∧ alget ([] : List (String × List String)) "heart" = none
    ∧ alget (msgR.reactions.getD []) "heart" = some ["v"] := by
  decide

/-- C5 (amended): double-toggling the same emoji by the same user returns
the message's reaction map to its prior state (same reactors under every
emoji key) whenever the emoji's prior entry is absent or exactly the
toggling user's singleton — in particular whenever no other user has
reacted with that emoji. -/
theorem reaction_toggle_amended (id u e : String) (msgs : List Msg) (m : Msg)
    (hm : getMessage id msgs = some m)
    (hnodup : ((m.reactions.getD []).map Prod.fst).Nodup)
    (hprior : alget (m.reactions.getD []) e = none
      ∨ alget (m.reactions.getD []) e = some [u]) :
    ∃ m2, getMessage id (transactReaction id u e
        (transactReaction id u e msgs).2).2 = some m2
      ∧ ∀ k, alget (m2.reactions.getD []) k = alget (m.reactions.getD []) k := by
  have hid : m.id = id := (getMessage_eq_some id msgs m hm).2
  have hpres : ∀ (rs : List (String × List String)) (x : Msg),
      ((fun x => if x.id = id then { x with reactions := some rs } else x) x).id
        = x.id := by
    intro rs x
    by_cases h : x.id = id <;> simp [h]
  have h1 : transactReaction id u e msgs
      = (some { m with reactions := some (toggleReactions u e (m.reactions.getD [])) },
         msgs.map (fun x => if x.id = id then
           { x with reactions := some (toggleReactions u e (m.reactions.getD [])) }
           else x)) := by
    unfold transactReaction
    rw [hm]
  rw [h1]
  have h2 : getMessage id (msgs.map (fun x => if x.id = id then
      { x with reactions := some (toggleReactions u e (m.reactions.getD [])) }
      else x)) = some { m with
        reactions := some (toggleReactions u e (m.reactions.getD [])) } := by
    rw [getMessage_map id _ (hpres _) msgs, hm]
    simp [hid]
  have h3 : transactReaction id u e (msgs.map (fun x => if x.id = id then
      { x with reactions := some (toggleReactions u e (m.reactions.getD [])) }
      else x))
      = (some { m with reactions := some (toggleReactions u e
            (toggleReactions u e (m.reactions.getD []))) },
         (msgs.map (fun x => if x.id = id then
           { x with reactions := some (toggleReactions u e (m.reactions.getD [])) }
           else x)).map (fun x => if x.id = id then
           { x with reactions := some (toggleReactions u e
             (toggleReactions u e (m.reactions.getD []))) }
           else x)) := by
    unfold transactReaction
    rw [h2]
    rfl
  rw [h3]
  refine ⟨{ m with reactions := some (toggleReactions u e
      (toggleReactions u e (m.reactions.getD []))) }, ?_, ?_⟩
  · dsimp only
    rw [getMessage_map id _ (hpres _) _, h2]
    simp [hid]
  · intro k
    simp only [Option.getD_some]
    exact toggleReactions_involutive u e (m.reactions.getD []) hnodup hprior k

/-- A stored message with no reactions yet. -/
def msgQ : Msg :=
  { id := "m2", from_ := "A", to_ := "B", createdAt := "T0", contentType := "text" }

/-- Concrete instantiation of `reaction_toggle_amended`. -/
theorem reaction_toggle_amended_witness :
    ∃ m2, getMessage "m2" (transactReaction "m2" "u" "heart"
        (transactReaction "m2" "u" "heart" [msgQ]).2).2 = some m2
      ∧ ∀ k, alget (m2.reactions.getD []) k = alget (msgQ.reactions.getD []) k :=
  reaction_toggle_amended "m2" "u" "heart" [msgQ] msgQ (by decide) (by decide)
    (Or.inl (by decide))

/-! ## C2: connection supersession -/

/-- A presence fan-out only appends frames to the outbox. -/
theorem foldl_sends_shape (frame : OutFrame) (l : List String) (st : GState) :
    ∃ fr, l.foldl (fun acc subId =>
      match alget acc.clients subId with
      | some c => safeSend c frame acc
      | none => acc) st = { st with outbox := st.outbox ++ fr } := by
  induction l generalizing st with
  | nil => exact ⟨[], by simp⟩
  | cons x xs ih =>
    rw [List.foldl_cons]
    have hstep : ∃ e, (match alget st.clients x with
        | some c => safeSend c frame st
        | none => st) = { st with outbox := st.outbox ++ e } := by
      cases h : alget st.clients x with
      | none => exact ⟨[], by simp⟩
      | some c =>
        dsimp only
        unfold safeSend
        by_cases hc : c ∈ st.openSocks
        · exact ⟨[(c, frame)], by rw [if_pos hc]⟩
        · exact ⟨[], by rw [if_neg hc]; simp⟩
    obtain ⟨e, he⟩ := hstep
    rw [he]
    obtain ⟨fr, hfr⟩ := ih { st with outbox := st.outbox ++ e }
    exact ⟨e ++ fr, by rw [hfr]; simp⟩

/-- `notifyPresence` only appends frames to the outbox. -/
theorem notifyPresence_shape (u : String) (b : Bool) (st : GState) :
    ∃ fr, notifyPresence u b st = { st with outbox := st.outbox ++ fr } := by
  unfold notifyPresence
  cases h : alget st.contactSubscriptions u with
  | none => exact ⟨[], by simp⟩
  | some subs => exact foldl_sends_shape _ subs st

/-- Replacing an existing key leaves the key list unchanged. -/
theorem alset_keys_present {α : Type} (l : List (String × α)) (k : String) (v : α)
    (h : (alget l k).isSome = true) :
    (alset l k v).map Prod.fst = l.map Prod.fst := by
  induction l with
  | nil => rw [alget] at h; cases h
  | cons hd t ih =>
    obtain ⟨k0, v0⟩ := hd
    by_cases hk : k0 = k
    · simp [alset, hk]
    · rw [alget, if_neg hk] at h
      simp [alset, hk, ih h]

/-- C2: when identity `userId` (bound to the still-open socket `s1`) opens
a new connection on socket `s2`, the old socket is closed with code 4002
and reason "replaced" before the new binding is installed; afterwards
only `s2` is registered (the registry keeps one entry per identity), and
the close event later fired by the superseded socket `s1` is a complete
no-op — it does not remove the new binding and broadcasts no offline
presence. -/
theorem single_binding_rebind (nowIso : String) (userId : String) (s1 s2 : Nat)
    (st : GState)
    (hprev : alget st.clients userId = some s1)
    (hopen : s1 ∈ st.openSocks)
    (hne : s1 ≠ s2)
    (hnodup : (st.clients.map Prod.fst).Nodup) :
    (alget (handleConnect nowIso userId s2 st).clients userId = some s2)
    ∧ (((handleConnect nowIso userId s2 st).clients.map Prod.fst).Nodup)
    ∧ ((handleConnect nowIso userId s2 st).closeLog
        = st.closeLog ++ [(s1, 4002, "replaced")])
    ∧ s1 ∉ (handleConnect nowIso userId s2 st).openSocks
    ∧ (∀ nowIso2, handleClose nowIso2 userId s1 (handleConnect nowIso userId s2 st)
        = handleConnect nowIso userId s2 st) := by
  have hs1mem : s1 ∈ addSock s2 st.openSocks := by
    unfold addSock
    by_cases h : s2 ∈ st.openSocks
    · rw [if_pos h]; exact hopen
    · rw [if_neg h]; exact List.mem_append_left _ hopen
  obtain ⟨fr, hnp⟩ := notifyPresence_shape userId true { st with
      clients := alset st.clients userId s2,
      onlineUsers := alset st.onlineUsers userId nowIso,
      openSocks := (addSock s2 st.openSocks).filter (fun s => decide (s ≠ s1)),
      closeLog := st.closeLog ++ [(s1, 4002, "replaced")] }
  have hrun : handleConnect nowIso userId s2 st = { st with
      clients := alset st.clients userId s2,
      onlineUsers := alset st.onlineUsers userId nowIso,
      openSocks := (addSock s2 st.openSocks).filter (fun s => decide (s ≠ s1)),
      closeLog := st.closeLog ++ [(s1, 4002, "replaced")],
      outbox := st.outbox ++ fr } := by
    unfold handleConnect
    dsimp only
    rw [hprev]
    dsimp only
    rw [if_pos ⟨hne, hs1mem⟩]
    exact hnp
  refine ⟨?_, ?_, ?_, ?_, ?_⟩
  · rw [hrun]
    exact alget_alset_self st.clients userId s2
  · rw [hrun]
    show ((alset st.clients userId s2).map Prod.fst).Nodup
    rw [alset_keys_present st.clients userId s2 (by rw [hprev]; rfl)]
    exact hnodup
  · rw [hrun]
  · rw [hrun]
    simp [List.mem_filter]
  · intro nowIso2
    rw [hrun]
    unfold handleClose
    rw [show alget ({ st with
      clients := alset st.clients userId s2,
      onlineUsers := alset st.onlineUsers userId nowIso,
      openSocks := (addSock s2 st.openSocks).filter (fun s => decide (s ≠ s1)),
      closeLog := st.closeLog ++ [(s1, 4002, "replaced")],
      outbox := st.outbox ++ fr } : GState).clients userId = some s2
      from alget_alset_self st.clients userId s2]
    dsimp only
    rw [if_neg (fun e => hne e.symm)]

/-- A state where "A" is bound to open socket 1. -/
def stBind : GState := { clients := [("A", 1)], openSocks := [1] }

/-- Concrete instantiation of `single_binding_rebind`. -/
theorem single_binding_rebind_witness :
    alget (handleConnect "T1" "A" 2 stBind).clients "A" = some 2
    ∧ (handleConnect "T1" "A" 2 stBind).closeLog = stBind.closeLog ++ [(1, 4002, "replaced")]
    ∧ (1 ∉ (handleConnect "T1" "A" 2 stBind).openSocks)
    ∧ handleClose "T2" "A" 1 (handleConnect "T1" "A" 2 stBind)
        = handleConnect "T1" "A" 2 stBind := by
  have h := single_binding_rebind "T1" "A" 1 2 stBind (by decide) (by decide)
    (by decide) (by decide)
  exact ⟨h.1, h.2.2.1, h.2.2.2.1, h.2.2.2.2 "T2"⟩

/-! ## C6: websocket rate limiting -/

/-- Inside an un-expired window whose counter is at `k`, the next checks
admit exactly while the counter stays at or below the cap. -/
theorem runChecks_window (userId : String) (ts : List Nat) (k r : Nat)
    (lims : List (String × RateEntry))
    (hentry : alget lims userId = some ⟨k, r⟩)
    (hts : ∀ t ∈ ts, t ≤ r) :
    (runChecks userId ts lims).1
      = (List.range ts.length).map (fun i => decide (k + 1 + i ≤ WS_RATE_LIMIT)) := by
  induction ts generalizing k lims with
  | nil => rfl
  | cons t ts ih =>
    have htr : ¬ r < t := by
      have := hts t (List.mem_cons_self t ts)
      omega
    have hcheck : checkWsRate t userId lims
        = (decide (k + 1 ≤ WS_RATE_LIMIT), alset lims userId ⟨k + 1, r⟩) := by
      unfold checkWsRate
      rw [hentry]
      dsimp only
      rw [if_neg htr]
    unfold runChecks
    rw [hcheck]
    dsimp only
    rw [ih (k + 1) (alset lims userId ⟨k + 1, r⟩) (alget_alset_self _ _ _)
      (fun t' ht' => hts t' (List.mem_cons_of_mem _ ht'))]
    simp only [List.length_cons]
    rw [List.range_succ_eq_map, List.map_cons, List.map_map]
    refine congrArg₂ List.cons ?_ ?_
    · norm_num
    · apply List.map_congr_left
      intro i _
      have he : k + 1 + 1 + i = k + 1 + (i + 1) := by omega
      simp [Function.comp, he]

/-- C6: starting from a missing or expired window, a burst of frames all
inside the new window is admitted exactly for its first `WS_RATE_LIMIT`
(60) frames and rejected from the 61st on; a rejected frame makes the
handler send a single rate-limit error frame back to the offending
connection, mutate nothing else, and leave the socket open; and the
window resets lazily on the first admission check after expiry. -/
theorem rate_limit_contract (userId : String) (t0 : Nat) (ts : List Nat)
    (lims : List (String × RateEntry))
    (hfresh : ∀ en, alget lims userId = some en → en.resetAt < t0)
    (hin : ∀ t ∈ ts, t ≤ t0 + WS_RATE_WINDOW) :
    ((runChecks userId (t0 :: ts) lims).1
      = (List.range (ts.length + 1)).map (fun i => decide (i + 1 ≤ WS_RATE_LIMIT)))
    ∧ (∀ (nowMs : Nat) (nowIso : String) (sock : Nat) (raw : Raw) (st : GState),
        (checkWsRate nowMs userId st.wsRateLimits).1 = false →
        ((handleRaw nowMs nowIso userId sock raw st).store = st.store
        ∧ (handleRaw nowMs nowIso userId sock raw st).openSocks = st.openSocks
        ∧ (handleRaw nowMs nowIso userId sock raw st).clients = st.clients
        ∧ (handleRaw nowMs nowIso userId sock raw st).closeLog = st.closeLog
        ∧ (sock ∈ st.openSocks →
            (handleRaw nowMs nowIso userId sock raw st).outbox
              = st.outbox ++ [(sock, OutFrame.errorFrame "rate_limited")])))
    ∧ (∀ (now : Nat) (lims2 : List (String × RateEntry)) (en : RateEntry),
        alget lims2 userId = some en → en.resetAt < now →
        checkWsRate now userId lims2
          = (true, alset lims2 userId ⟨1, now + WS_RATE_WINDOW⟩)) := by
  refine ⟨?_, ?_, ?_⟩
  · have hfirst : checkWsRate t0 userId lims
        = (true, alset lims userId ⟨1, t0 + WS_RATE_WINDOW⟩) := by
      unfold checkWsRate
      cases h : alget lims userId with
      | none => rfl
      | some en =>
        dsimp only
        rw [if_pos (hfresh en h)]
    unfold runChecks
    rw [hfirst]
    dsimp only
    rw [runChecks_window userId ts 1 (t0 + WS_RATE_WINDOW) _ (alget_alset_self _ _ _)
      hin]
    rw [List.range_succ_eq_map, List.map_cons, List.map_map]
    refine congrArg₂ List.cons ?_ ?_
    · norm_num [WS_RATE_LIMIT]
    · apply List.map_congr_left
      intro i _
      have he : 1 + 1 + i = i + 1 + 1 := by omega
      simp [Function.comp, he]
  · intro nowMs nowIso sock raw st hden
    unfold handleRaw
    dsimp only
    rw [if_neg (by rw [hden]; exact Bool.false_ne_true)]
    refine ⟨by simp, by simp, by simp, by simp, ?_⟩
    intro hsock
    have : sock ∈ ({ st with
        wsRateLimits := (checkWsRate nowMs userId st.wsRateLimits).2 } : GState).openSocks :=
      hsock
    rw [safeSend_open _ _ _ this]
  · intro now lims2 en hget hlt
    unfold checkWsRate
    rw [hget]
    dsimp only
    rw [if_pos hlt]

/-- A state whose rate window for "u" is full (count 60) and unexpired at
time 2, with socket 9 open. -/
def stLim : GState :=
  { wsRateLimits := [("u", ⟨60, 10000⟩)], openSocks := [9] }

/-- Concrete instantiation of `rate_limit_contract`: 61 checks inside one
window yield 60 admissions then a rejection, and the rejected frame gets
exactly one rate-limit error frame without any other state change. -/
theorem rate_limit_contract_witness :
    ((runChecks "u" (0 :: List.replicate 60 1) []).1
      = (List.range 61).map (fun i => decide (i + 1 ≤ WS_RATE_LIMIT)))
    ∧ ((handleRaw 2 "T" "u" 9 ⟨0, none⟩ stLim).outbox
        = stLim.outbox ++ [(9, OutFrame.errorFrame "rate_limited")]) := by
  have h := rate_limit_contract "u" 0 (List.replicate 60 1) []
    (fun en hen => by rw [alget] at hen; cases hen) (by decide)
  exact ⟨h.1, (h.2.1 2 "T" 9 ⟨0, none⟩ stLim (by decide)).2.2.2.2 (by decide)⟩

/-! ## C8: malformed frames are dropped silently -/

theorem handleSend_guard (nowIso userId : String) (sock : Nat) (p : Payload)
    (st : GState)
    (h : ¬ truthy p.to_ = true ∨ ¬ truthy p.id = true ∨ ¬ truthy p.createdAt = true) :
    handleSend nowIso userId sock p st = st := by
  unfold handleSend
  rw [if_pos h]

theorem handleTyping_guard (userId : String) (p : Payload) (st : GState)
    (h : ¬ truthy p.to_ = true) :
    handleTyping userId p st = st := by
  unfold handleTyping
  rw [if_pos h]

theorem handleDelete_guard (userId : String) (p : Payload) (st : GState)
    (h : ¬ truthy p.id = true) :
    handleDelete userId p st = st := by
  unfold handleDelete
  rw [if_pos h]

theorem handleEdit_guard (nowIso userId : String) (sock : Nat) (p : Payload)
    (st : GState) (h : ¬ truthy p.id = true ∨ ¬ truthy p.peerId = true) :
    handleEdit nowIso userId sock p st = st := by
  unfold handleEdit
  rw [if_pos h]

theorem handlePin_guard (userId : String) (sock : Nat) (p : Payload) (st : GState)
    (h : ¬ truthy p.id = true ∨ ¬ truthy p.peerId = true) :
    handlePin userId sock p st = st := by
  unfold handlePin
  rw [if_pos h]

theorem handleReact_guard (userId : String) (sock : Nat) (p : Payload) (st : GState)
    (h : ¬ truthy p.id = true ∨ ¬ truthy p.peerId = true ∨ ¬ truthy p.emoji = true) :
    handleReact userId sock p st = st := by
  unfold handleReact
  rw [if_pos h]

theorem handleCall_guard (userId ty : String) (p : Payload) (st : GState)
    (h : ¬ truthy p.to_ = true) :
    handleCall userId ty p st = st := by
  unfold handleCall
  rw [if_pos h]

theorem handleStatus_guard (userId : String) (p : Payload) (st : GState)
    (h : ¬ truthy p.status = true) :
    handleStatus userId p st = st := by
  unfold handleStatus
  rw [if_pos h]

/-- A frame of a recognized kind that is missing a required field of that
kind (the per-kind early-return guards of the dispatch loop). -/
def missingKindFields (ty : String) (p : Payload) : Prop :=
  (ty = "message.send" ∧ (¬ truthy p.to_ = true ∨ ¬ truthy p.id = true
    ∨ ¬ truthy p.createdAt = true))
  ∨ (ty = "typing" ∧ ¬ truthy p.to_ = true)
  ∨ (ty = "message.delete" ∧ ¬ truthy p.id = true)
  ∨ (ty = "message.edit" ∧ (¬ truthy p.id = true ∨ ¬ truthy p.peerId = true))
  ∨ (ty = "message.pin" ∧ (¬ truthy p.id = true ∨ ¬ truthy p.peerId = true))
  ∨ (ty = "message.react" ∧ (¬ truthy p.id = true ∨ ¬ truthy p.peerId = true
    ∨ ¬ truthy p.emoji = true))
  ∨ ((ty = "call.offer" ∨ ty = "call.answer" ∨ ty = "call.ice" ∨ ty = "call.end")
    ∧ ¬ truthy p.to_ = true)
  ∨ (ty = "status.update" ∧ ¬ truthy p.status = true)
  ∨ (ty = "message.read" ∧ (p.ids = none ∨ p.ids = some []
    ∨ (∃ l, p.ids = some l ∧ 100 < l.length)))

/-- A malformed inbound frame: oversized, unparsable JSON, failing the
`{type, payload}` shape check, or missing the required fields of its
recognized frame kind. -/
def isMalformed (raw : Raw) : Prop :=
  512000 < raw.length
  ∨ raw.parsed = none
  ∨ (∃ pf, raw.parsed = some pf ∧
      (pf.payload = none ∨ pf.type = TypeField.missing
        ∨ pf.type = TypeField.truthyNonString ∨ pf.type = TypeField.jstr ""))
  ∨ (∃ pf ty p, raw.parsed = some pf ∧ pf.type = TypeField.jstr ty
      ∧ pf.payload = some p ∧ missingKindFields ty p)

/-- A recognized frame kind with a missing required field dispatches to a
guard that returns the state unchanged. -/
theorem dispatch_guard (nowIso userId : String) (sock : Nat) (ty : String)
    (p : Payload) (st : GState) (h : missingKindFields ty p) :
    dispatch nowIso userId sock ty p st = st := by
  rcases h with ⟨rfl, hmiss⟩ | ⟨rfl, hmiss⟩ | ⟨rfl, hmiss⟩ | ⟨rfl, hmiss⟩
    | ⟨rfl, hmiss⟩ | ⟨rfl, hmiss⟩ | ⟨hty, hmiss⟩ | ⟨rfl, hmiss⟩ | ⟨rfl, hmiss⟩
  · show handleSend nowIso userId sock p st = st
    exact handleSend_guard nowIso userId sock p st hmiss
  · show handleTyping userId p st = st
    exact handleTyping_guard userId p st hmiss
  · show handleDelete userId p st = st
    exact handleDelete_guard userId p st hmiss
  · show handleEdit nowIso userId sock p st = st
    exact handleEdit_guard nowIso userId sock p st hmiss
  · show handlePin userId sock p st = st
    exact handlePin_guard userId sock p st hmiss
  · show handleReact userId sock p st = st
    exact handleReact_guard userId sock p st hmiss
  · rcases hty with rfl | rfl | rfl | rfl
    · show handleCall userId "call.offer" p st = st
      exact handleCall_guard userId _ p st hmiss
    · show handleCall userId "call.answer" p st = st
      exact handleCall_guard userId _ p st hmiss
    · show handleCall userId "call.ice" p st = st
      exact handleCall_guard userId _ p st hmiss
    · show handleCall userId "call.end" p st = st
      exact handleCall_guard userId _ p st hmiss
  · show handleStatus userId p st = st
    exact handleStatus_guard userId p st hmiss
  · show handleRead nowIso userId p st = st
    exact handleRead_invalid nowIso userId p st hmiss

/-- Any malformed frame leaves the state exactly as it was. -/
theorem processFrame_malformed (nowIso userId : String) (sock : Nat) (raw : Raw)
    (st : GState) (hMal : isMalformed raw) :
    processFrame nowIso userId sock raw st = st := by
  unfold processFrame
  rcases hMal with hlen | hparse | ⟨pf, hpf, hshape⟩ | ⟨pf, ty, p, hpf, hty, hpl, hkind⟩
  · rw [if_pos hlen]
  · by_cases hl : 512000 < raw.length
    · rw [if_pos hl]
    · rw [if_neg hl, hparse]
  · by_cases hl : 512000 < raw.length
    · rw [if_pos hl]
    · rw [if_neg hl, hpf]
      obtain ⟨tf, pl⟩ := pf
      rcases hshape with h | h | h | h
      · simp only at h
        subst h
        cases tf <;> rfl
      all_goals simp only at h
      all_goals subst h
      · cases pl <;> rfl
      · cases pl <;> rfl
      · cases pl <;> rfl
  · by_cases hl : 512000 < raw.length
    · rw [if_pos hl]
    · rw [if_neg hl, hpf]
      obtain ⟨tf, pl⟩ := pf
      simp only at hty hpl
      subst hty
      subst hpl
      have hne : ty.isEmpty = false := by
        rcases hkind with ⟨rfl, -⟩ | ⟨rfl, -⟩ | ⟨rfl, -⟩ | ⟨rfl, -⟩ | ⟨rfl, -⟩
          | ⟨rfl, -⟩ | ⟨hty2, -⟩ | ⟨rfl, -⟩ | ⟨rfl, -⟩
        · rfl
        · rfl
        · rfl
        · rfl
        · rfl
        · rfl
        · rcases hty2 with rfl | rfl | rfl | rfl <;> rfl
        · rfl
        · rfl
      show (if ty.isEmpty = true then st else dispatch nowIso userId sock ty p st) = st
      rw [hne]
      simp only [Bool.false_eq_true, if_false]
      exact dispatch_guard nowIso userId sock ty p st hkind

/-- C8: an inbound frame that is malformed — oversized, unparsable as
JSON, failing the `{type, payload}` shape check, or missing the required
fields of its frame kind — and that passes the rate limiter changes
nothing but the rate-limit counter: no store mutation, no outbound frame,
no socket close, and the receive loop does not throw (the model is a
total function). -/
theorem malformed_frames_silent (nowMs : Nat) (nowIso userId : String) (sock : Nat)
    (raw : Raw) (st : GState)
    (hAdmit : (checkWsRate nowMs userId st.wsRateLimits).1 = true)
    (hMal : isMalformed raw) :
    handleRaw nowMs nowIso userId sock raw st
      = { st with wsRateLimits := (checkWsRate nowMs userId st.wsRateLimits).2 } := by
  unfold handleRaw
  dsimp only
  rw [if_pos hAdmit]
  exact processFrame_malformed nowIso userId sock raw _ hMal

/-- Concrete instantiation of `malformed_frames_silent`: unparsable JSON
on a fresh connection state. -/
theorem malformed_frames_silent_witness :
    handleRaw 5 "T" "u" 1 ⟨9, none⟩ ({} : GState)
      = { ({} : GState) with
          wsRateLimits := (checkWsRate 5 "u" ({} : GState).wsRateLimits).2 } :=
  malformed_frames_silent 5 "T" "u" 1 ⟨9, none⟩ ({} : GState) (by decide)
    (Or.inr (Or.inl rfl))

end MAS
